import Mathlib

/-!
Verification of the editing core of PyEdit (a vim-like terminal text editor).

The Python source is shallowly embedded: strings become `List Char`, Python
lists become Lean lists, in-place mutation becomes state passing, and the
class fields of `Buffer`, the command objects and `Editor` become structure
fields.  Names follow the source (`src/core/buffer.py`, `src/commands/*.py`,
`src/core/editor.py`, `src/components/key_handler.py`).
-/

namespace PyEdit

/-- A (row, column) coordinate; the source dataclass clamps both fields to
be nonnegative in its post-init hook, so the embedding uses `Nat`. -/
structure Position where
  row : Nat
  col : Nat
deriving DecidableEq, Repr

/-- Construction of a `Position` from possibly negative integers, mirroring
`Position.__post_init__` which applies `max 0` to each field. -/
def Position.make (row col : Int) : Position :=
  ⟨row.toNat, col.toNat⟩

/-- A text line, embedded as its list of characters. -/
abbrev Line := List Char

/-- The document buffer of `src/core/buffer.py`: the line list, the modified
flag and the cursor.  The `filename` field plays no role in the claims and
is omitted. -/
structure Buffer where
  lines : List Line
  modified : Bool
  cursor : Position
deriving DecidableEq, Repr

/-- `Buffer.__init__`: one blank line, unmodified, cursor at the origin. -/
def Buffer.init : Buffer :=
  { lines := [[]], modified := false, cursor := ⟨0, 0⟩ }

/-- `Buffer.get_line_count`. -/
def Buffer.get_line_count (b : Buffer) : Nat :=
  b.lines.length

/-- `Buffer.get_line`: the line at `row`, or the empty line when `row` is
out of range (the source checks `0 <= row < len(self.lines)`). -/
def Buffer.get_line (b : Buffer) (row : Nat) : Line :=
  b.lines.getD row []

/-- `Buffer.insert_text`: extend with blank lines when `pos.row` is past the
end, then splice `text` into the addressed line at `pos.col` (Python slices
clamp, so `List.take`/`List.drop` match), and set the modified flag. -/
def Buffer.insert_text (b : Buffer) (pos : Position) (text : Line) : Buffer :=
  let lines :=
    if b.lines.length ≤ pos.row then
      b.lines ++ List.replicate (pos.row - b.lines.length + 1) []
    else
      b.lines
  let line := lines.getD pos.row []
  { b with
    lines := lines.set pos.row (line.take pos.col ++ text ++ line.drop pos.col)
    modified := true }

/-- `Buffer.delete_text`: an early return leaves the buffer untouched when
the row does not exist; otherwise the characters are removed only when the
range fits in the line, and the modified flag is set either way. -/
def Buffer.delete_text (b : Buffer) (pos : Position) (length : Nat) : Buffer :=
  if b.lines.length ≤ pos.row then
    b
  else
    let line := b.lines.getD pos.row []
    let lines :=
      if pos.col + length ≤ line.length then
        b.lines.set pos.row (line.take pos.col ++ line.drop (pos.col + length))
      else
        b.lines
    { b with lines := lines, modified := true }

/-- `Buffer.get_text`: the substring `line[pos.col : pos.col + length]`,
empty when the row is out of range. -/
def Buffer.get_text (b : Buffer) (pos : Position) (length : Nat) : Line :=
  if b.lines.length ≤ pos.row then
    []
  else
    ((b.lines.getD pos.row []).drop pos.col).take length

/-- `Buffer.insert_newline`: extend with blank lines when needed, then split
the addressed line at `pos.col`, inserting the tail as a new line right
after it. -/
def Buffer.insert_newline (b : Buffer) (pos : Position) : Buffer :=
  let lines :=
    if b.lines.length ≤ pos.row then
      b.lines ++ List.replicate (pos.row - b.lines.length + 1) []
    else
      b.lines
  let line := lines.getD pos.row []
  { b with
    lines := (lines.set pos.row (line.take pos.col)).insertIdx (pos.row + 1) (line.drop pos.col)
    modified := true }

/-- `Buffer.delete_line`: remove the line when more than one remains,
otherwise clear the single line; the modified flag is set in every case
(the assignment sits outside the range check in the source). -/
def Buffer.delete_line (b : Buffer) (row : Nat) : Buffer :=
  if row < b.lines.length then
    if 1 < b.lines.length then
      { b with lines := b.lines.eraseIdx row, modified := true }
    else
      { b with lines := b.lines.set 0 [], modified := true }
  else
    { b with modified := true }

/-- The two reversible command classes of `src/commands/`: `InsertCommand`
holds a position and the text; `DeleteCommand` additionally carries its
mutable `deleted_text` field (initially empty, overwritten on execute). -/
inductive Command where
  | insert (pos : Position) (text : Line)
  | delete (pos : Position) (length : Nat) (deleted_text : Line)
deriving DecidableEq, Repr

/-- `Command.execute`: the insert splices its text; the delete first
snapshots the text about to be removed into its `deleted_text` field and
then removes it.  The updated command object is returned alongside the
buffer because the source mutates the object in place. -/
def Command.execute : Command → Buffer → Command × Buffer
  | .insert pos text, b => (.insert pos text, b.insert_text pos text)
  | .delete pos length _, b =>
      (.delete pos length (b.get_text pos length), b.delete_text pos length)

/-- `Command.undo`: the insert deletes as many characters as it inserted;
the delete re-inserts its snapshot. -/
def Command.undo : Command → Buffer → Buffer
  | .insert pos text, b => b.delete_text pos text.length
  | .delete pos _ deleted_text, b => b.insert_text pos deleted_text

/-- The editing modes of `src/utils/mode.py`. -/
inductive Mode where
  | NORMAL
  | INSERT
  | VISUAL
  | COMMAND
  | SEARCH
  | FILE_EXPLORER
deriving DecidableEq, Repr

/-- The editor state of `src/core/editor.py` restricted to the fields the
editing core reads and writes: the mode, the buffer, the visual-selection
anchor, the command/search input lines, the command history and the undo
index (`-1` when the history is empty, hence an `Int`).  Curses display
state (screen, scroll offset, explorer layout) is omitted: the claims never
mention it and it never feeds back into these fields. -/
structure Editor where
  mode : Mode
  buffer : Buffer
  visual_start : Position
  command_buffer : Line
  search_buffer : Line
  command_history : List Command
  undo_index : Int
deriving DecidableEq, Repr

/-- `Editor.__init__` (fields relevant to the editing core). -/
def Editor.init : Editor :=
  { mode := .NORMAL
    buffer := Buffer.init
    visual_start := ⟨0, 0⟩
    command_buffer := []
    search_buffer := []
    command_history := []
    undo_index := -1 }

/-- `Editor._execute_command`: run the command, truncate the history when
the undo index is not at the last entry, append the (captured) command
object, and point the index at it. -/
def Editor._execute_command (e : Editor) (command : Command) : Editor :=
  let eb := command.execute e.buffer
  let history :=
    if e.undo_index < (e.command_history.length : Int) - 1 then
      e.command_history.take (e.undo_index + 1).toNat
    else
      e.command_history
  let history := history ++ [eb.1]
  { e with
    buffer := eb.2
    command_history := history
    undo_index := (history.length : Int) - 1 }

/-- `Editor.undo`: when the index is nonnegative, undo the entry it points
at and decrement it.  The source indexes the history list directly; under
the history invariant the index is always in range, so the embedding reads
the entry with a default that is never reached in source runs. -/
def Editor.undo (e : Editor) : Editor :=
  if 0 ≤ e.undo_index then
    let command := e.command_history.getD e.undo_index.toNat (.insert ⟨0, 0⟩ [])
    { e with buffer := command.undo e.buffer, undo_index := e.undo_index - 1 }
  else
    e

/-- `Editor.redo`: when the index is not at the last entry, increment it
and re-execute the entry it now points at; the source mutates the stored
command object in place, embedded by writing the re-captured object back
into the history list. -/
def Editor.redo (e : Editor) : Editor :=
  if e.undo_index < (e.command_history.length : Int) - 1 then
    let i := (e.undo_index + 1).toNat
    let command := e.command_history.getD i (.insert ⟨0, 0⟩ [])
    let eb := command.execute e.buffer
    { e with
      buffer := eb.2
      command_history := e.command_history.set i eb.1
      undo_index := e.undo_index + 1 }
  else
    e

/-- `Editor.move_cursor`: clamp the new row into the line range first, then
clamp the new column against the length of the line at that new row.  The
trailing `_adjust_scroll` call only moves the display offset and is
omitted. -/
def Editor.move_cursor (e : Editor) (dx dy : Int) : Editor :=
  let new_row := (min ((e.buffer.get_line_count : Int) - 1)
      ((e.buffer.cursor.row : Int) + dy)).toNat
  let line := e.buffer.get_line new_row
  let new_col := (min ((line.length : Int)) ((e.buffer.cursor.col : Int) + dx)).toNat
  { e with buffer := { e.buffer with cursor := ⟨new_row, new_col⟩ } }

/-- `Editor.insert_char`: execute an insert command for the character, then
advance the cursor column. -/
def Editor.insert_char (e : Editor) (char : Char) : Editor :=
  let e1 := e._execute_command (.insert e.buffer.cursor [char])
  { e1 with buffer := { e1.buffer with
      cursor := ⟨e1.buffer.cursor.row, e1.buffer.cursor.col + 1⟩ } }

/-- `Editor.delete_char`: delete the character under the cursor when the
cursor is strictly inside the line. -/
def Editor.delete_char (e : Editor) : Editor :=
  if e.buffer.cursor.col < (e.buffer.get_line e.buffer.cursor.row).length then
    e._execute_command (.delete e.buffer.cursor 1 [])
  else
    e

/-- `Editor.backspace`: inside a line, step the cursor back and delete one
character through the history; at column zero of a later row, join with the
previous line by executing an insert of the current line at the end of the
previous one, then popping the current line directly. -/
def Editor.backspace (e : Editor) : Editor :=
  if 0 < e.buffer.cursor.col then
    let e1 := { e with buffer := { e.buffer with
        cursor := ⟨e.buffer.cursor.row, e.buffer.cursor.col - 1⟩ } }
    e1._execute_command (.delete ⟨e1.buffer.cursor.row, e1.buffer.cursor.col⟩ 1 [])
  else if 0 < e.buffer.cursor.row then
    let prev_line := e.buffer.get_line (e.buffer.cursor.row - 1)
    let curr_line := e.buffer.get_line e.buffer.cursor.row
    let e1 := e._execute_command (.insert ⟨e.buffer.cursor.row - 1, prev_line.length⟩ curr_line)
    { e1 with buffer := { e1.buffer with
        lines := e1.buffer.lines.eraseIdx e1.buffer.cursor.row
        cursor := ⟨e1.buffer.cursor.row - 1, prev_line.length⟩
        modified := true } }
  else
    e

/-- `Editor.insert_newline`: build an insert command for the text after the
cursor addressed at the start of the next row, execute it through the
history, then split the current line with `Buffer.insert_newline` and move
the cursor to the start of the next row. -/
def Editor.insert_newline (e : Editor) : Editor :=
  let line := e.buffer.get_line e.buffer.cursor.row
  let after := line.drop e.buffer.cursor.col
  let e1 := e._execute_command (.insert ⟨e.buffer.cursor.row + 1, 0⟩ after)
  let b2 := e1.buffer.insert_newline e1.buffer.cursor
  { e1 with buffer := { b2 with cursor := ⟨b2.cursor.row + 1, 0⟩ } }

/-- `Editor.insert_line_below`: move the cursor column to the end of the
line, insert a newline, and enter Insert mode. -/
def Editor.insert_line_below (e : Editor) : Editor :=
  let line := e.buffer.get_line e.buffer.cursor.row
  let e1 := { e with buffer := { e.buffer with
      cursor := ⟨e.buffer.cursor.row, line.length⟩ } }
  let e2 := e1.insert_newline
  { e2 with mode := .INSERT }

/-- `Editor.insert_line_above`: insert a blank line at the cursor row, move
the column to zero, mark the buffer modified, and enter Insert mode. -/
def Editor.insert_line_above (e : Editor) : Editor :=
  { e with
    mode := .INSERT
    buffer := { e.buffer with
      lines := e.buffer.lines.insertIdx e.buffer.cursor.row []
      cursor := ⟨e.buffer.cursor.row, 0⟩
      modified := true } }

/-- `Editor.delete_selection`: in Visual mode, normalize the anchor and
live columns with min/max, delete that range on the cursor row through the
history, move the cursor column to the start of the range, and return to
Normal mode.  The status-bar message is display-only and omitted. -/
def Editor.delete_selection (e : Editor) : Editor :=
  if e.mode = .VISUAL then
    let start := min e.visual_start.col e.buffer.cursor.col
    let stop := max e.visual_start.col e.buffer.cursor.col
    let row := e.buffer.cursor.row
    let e1 := e._execute_command (.delete ⟨row, start⟩ (stop - start) [])
    { e1 with
      buffer := { e1.buffer with cursor := ⟨e1.buffer.cursor.row, start⟩ }
      mode := .NORMAL }
  else
    e

/-- `KeyHandler._handle_normal_mode` of `src/components/key_handler.py`,
branch for branch in source order, with curses key constants inlined
(KEY_DOWN = 258, KEY_UP = 259, KEY_LEFT = 260, KEY_RIGHT = 261).  The
result is `some (editor, should_quit)` for a branch that completes, and
`none` for a branch that raises.  The branch for the enter-visual key
`ord v = 118` first assigns Visual mode and then evaluates
`Position(self.editor.cursor.row, self.editor.cursor.col)`; the `Editor`
object has no attribute `cursor` anywhere in the source (the cursor lives
at `editor.buffer.cursor`), so that attribute access raises
`AttributeError` and the branch is embedded as `none`. -/
def KeyHandler.handle_normal_mode (e : Editor) (key : Nat) : Option (Editor × Bool) :=
  if key = 105 then some ({ e with mode := .INSERT }, false)
  else if key = 118 then none
  else if key = 58 then some ({ e with mode := .COMMAND, command_buffer := [] }, false)
  else if key = 47 then some ({ e with mode := .SEARCH, search_buffer := [] }, false)
  else if key = 101 then some ({ e with mode := .FILE_EXPLORER }, false)
  else if key = 104 ∨ key = 260 then some (e.move_cursor (-1) 0, false)
  else if key = 106 ∨ key = 258 then some (e.move_cursor 0 1, false)
  else if key = 107 ∨ key = 259 then some (e.move_cursor 0 (-1), false)
  else if key = 108 ∨ key = 261 then some (e.move_cursor 1 0, false)
  else if key = 120 then some (e.delete_char, false)
  else if key = 111 then some (e.insert_line_below, false)
  else if key = 79 then some (e.insert_line_above, false)
  else if key = 117 then some (e.undo, false)
  else if key = 18 then some (e.redo, false)
  else if key = 113 then some (e, true)
  else some (e, false)

/-- A command fits a buffer when its whole range lies inside the addressed
line: the row exists, and for an insert the column is at most the line
length, while for a delete the column plus the deletion length is. -/
def Command.fits : Command → Buffer → Prop
  | .insert pos _, b =>
      pos.row < b.lines.length ∧ pos.col ≤ (b.lines.getD pos.row []).length
  | .delete pos length _, b =>
      pos.row < b.lines.length ∧ pos.col + length ≤ (b.lines.getD pos.row []).length

instance instDecidableFits : (c : Command) → (b : Buffer) → Decidable (c.fits b)
  | .insert _ _, _ => inferInstanceAs (Decidable (_ ∧ _))
  | .delete _ _ _, _ => inferInstanceAs (Decidable (_ ∧ _))

/-- Run a list of commands through a buffer, threading the buffer through
`Command.execute` and forgetting the captured command objects. -/
def run_commands : Buffer → List Command → Buffer
  | b, [] => b
  | b, c :: cs => run_commands (c.execute b).2 cs

/-- The command objects as the history stores them: each command with the
state it captured when it was executed. -/
def captured : Buffer → List Command → List Command
  | _, [] => []
  | b, c :: cs => (c.execute b).1 :: captured (c.execute b).2 cs

/-- Every command of the list fits the buffer it executes against. -/
def CommandsFit : Buffer → List Command → Prop
  | _, [] => True
  | b, c :: cs => c.fits b ∧ CommandsFit (c.execute b).2 cs

instance instDecidableCommandsFit : (b : Buffer) → (cs : List Command) →
    Decidable (CommandsFit b cs)
  | _, [] => isTrue trivial
  | b, c :: cs =>
    have : Decidable (CommandsFit (c.execute b).2 cs) :=
      instDecidableCommandsFit (c.execute b).2 cs
    inferInstanceAs (Decidable (_ ∧ _))

/-- Execute a list of commands through `Editor._execute_command`. -/
def Editor.exec_list : Editor → List Command → Editor
  | e, [] => e
  | e, c :: cs => (e._execute_command c).exec_list cs

/-- Iterate `Editor.undo`. -/
def Editor.undo_n : Editor → Nat → Editor
  | e, 0 => e
  | e, n + 1 => (e.undo).undo_n n

/-- Iterate `Editor.redo`. -/
def Editor.redo_n : Editor → Nat → Editor
  | e, 0 => e
  | e, n + 1 => (e.redo).redo_n n

/-- The live part of the history: the entries up to and including the one
the undo index points at. -/
def Editor.live (e : Editor) : List Command :=
  e.command_history.take (e.undo_index + 1).toNat

/-- Ghost description of the editor state reached after executing the
commands `cs` over buffer `b` on top of history prefix `P` and then undoing
`k` of them: the buffer is the intermediate buffer after the first
`cs.length - k` commands (with the modified flag set, since undo leaves it
set), the history still holds every captured command, and the undo index
has moved down by `k`. -/
def stage (e : Editor) (P : List Command) (b : Buffer) (cs : List Command) (k : Nat) :
    Editor :=
  { e with
    buffer := { run_commands b (cs.take (cs.length - k)) with modified := true }
    command_history := P ++ captured b cs
    undo_index := (P.length : Int) + cs.length - 1 - k }

/-! Concrete states used by counterexamples and witnesses. -/

/-- An unmodified one-line buffer holding the line "ab". -/
def buffer_ab : Buffer :=
  { lines := [['a', 'b']], modified := false, cursor := ⟨0, 0⟩ }

/-- A fresh editor whose buffer holds the single line "ab". -/
def editor_ab : Editor :=
  { Editor.init with buffer := buffer_ab }

/-- A delete command whose range does not fit in the line "ab". -/
def overlong_delete : Command :=
  .delete ⟨0, 1⟩ 5 []

/-- An editor in Visual mode on the line "hello", anchor at column 1 and
live cursor at column 3. -/
def editor_hello : Editor :=
  { Editor.init with
    mode := .VISUAL
    buffer := { lines := [['h', 'e', 'l', 'l', 'o']], modified := false, cursor := ⟨0, 3⟩ }
    visual_start := ⟨0, 1⟩ }

/-- The same Visual-mode state with anchor and live cursor swapped. -/
def editor_hello_swapped : Editor :=
  { Editor.init with
    mode := .VISUAL
    buffer := { lines := [['h', 'e', 'l', 'l', 'o']], modified := false, cursor := ⟨0, 1⟩ }
    visual_start := ⟨0, 3⟩ }

/-- A two-line buffer with the cursor on the second line. -/
def buffer_two_lines : Buffer :=
  { lines := [['a'], ['b']], modified := false, cursor := ⟨1, 0⟩ }

/-- Step 1 of the §8 newline scenario: insert "ab" at the origin of a fresh
buffer through the command history. -/
def scenario_step1 : Editor :=
  Editor.init._execute_command (.insert ⟨0, 0⟩ ['a', 'b'])

/-- Step 2: the cursor moves to (0, 2). -/
def scenario_step2 : Editor :=
  scenario_step1.move_cursor 2 0

/-- Step 3: insert a newline at (0, 2) via `Editor.insert_newline`. -/
def scenario_step3 : Editor :=
  scenario_step2.insert_newline

/-- An editor with two insert commands in its history and the undo index on
the first of them, so that the index is not at the last entry. -/
def editor_mid_history : Editor :=
  { Editor.init with
    buffer := { lines := [['a', 'b']], modified := true, cursor := ⟨0, 0⟩ }
    command_history := [.insert ⟨0, 0⟩ ['a'], .insert ⟨0, 1⟩ ['b']]
    undo_index := 0 }

/-! Helper lemmas about `List.getD` and `List.set`. -/

lemma getD_set_self {α : Type} : ∀ (l : List α) (i : Nat) (a d : α), i < l.length →
    (l.set i a).getD i d = a
  | _ :: _, 0, _, _, _ => rfl
  | _ :: xs, i + 1, a, d, h =>
      getD_set_self xs i a d (Nat.lt_of_succ_lt_succ h)

lemma set_getD_self {α : Type} : ∀ (l : List α) (i : Nat) (d : α),
    l.set i (l.getD i d) = l
  | [], _, _ => rfl
  | _ :: _, 0, _ => rfl
  | x :: xs, i + 1, d => by
      simpa [List.set, List.getD] using congrArg (x :: ·) (set_getD_self xs i d)

lemma getD_append_left {α : Type} : ∀ (l₁ l₂ : List α) (i : Nat) (d : α), i < l₁.length →
    (l₁ ++ l₂).getD i d = l₁.getD i d
  | _ :: _, _, 0, _, _ => rfl
  | _ :: xs, l₂, i + 1, d, h =>
      getD_append_left xs l₂ i d (Nat.lt_of_succ_lt_succ h)

lemma getD_append_right {α : Type} : ∀ (l₁ l₂ : List α) (i : Nat) (d : α), l₁.length ≤ i →
    (l₁ ++ l₂).getD i d = l₂.getD (i - l₁.length) d
  | [], _, _, _, _ => rfl
  | _ :: xs, l₂, i + 1, d, h => by
      simpa using getD_append_right xs l₂ i d (Nat.le_of_succ_le_succ h)
  | _ :: _, _, 0, _, h => absurd h (by simp)

lemma getD_length_lt {α : Type} (l : List α) (i : Nat) (d : α) (h : l.length ≤ i) :
    l.getD i d = d := by
  simp [List.getD, List.getElem?_eq_none h]

lemma set_length_le {α : Type} : ∀ (l : List α) (i : Nat) (a : α), l.length ≤ i →
    l.set i a = l
  | [], _, _, _ => rfl
  | x :: xs, i + 1, a, h => by
      simpa [List.set] using congrArg (x :: ·) (set_length_le xs i a (Nat.le_of_succ_le_succ h))

lemma getD_replicate {α : Type} : ∀ (n i : Nat) (a d : α), i < n →
    (List.replicate n a).getD i d = a
  | _ + 1, 0, _, _, _ => rfl
  | n + 1, i + 1, a, d, h => getD_replicate n i a d (Nat.lt_of_succ_lt_succ h)

/-! Shape lemmas for the buffer operations: lengths, cursor and flag. -/

lemma insert_text_modified (b : Buffer) (pos : Position) (text : Line) :
    (b.insert_text pos text).modified = true := rfl

lemma insert_text_cursor (b : Buffer) (pos : Position) (text : Line) :
    (b.insert_text pos text).cursor = b.cursor := rfl

lemma insert_text_length (b : Buffer) (pos : Position) (text : Line) :
    (b.insert_text pos text).lines.length = max b.lines.length (pos.row + 1) := by
  unfold Buffer.insert_text
  by_cases hr : b.lines.length ≤ pos.row
  · simp only [hr, if_true, List.length_set, List.length_append, List.length_replicate]
    omega
  · simp only [hr, if_false, List.length_set]
    omega

lemma delete_text_cursor (b : Buffer) (pos : Position) (length : Nat) :
    (b.delete_text pos length).cursor = b.cursor := by
  unfold Buffer.delete_text
  split <;> rfl

lemma delete_text_length (b : Buffer) (pos : Position) (length : Nat) :
    (b.delete_text pos length).lines.length = b.lines.length := by
  unfold Buffer.delete_text
  by_cases hr : b.lines.length ≤ pos.row
  · simp only [hr, if_true]
  · simp only [hr, if_false]
    split
    · simp only [List.length_set]
    · rfl

lemma insert_newline_cursor (b : Buffer) (pos : Position) :
    (b.insert_newline pos).cursor = b.cursor := rfl

lemma insert_newline_length (b : Buffer) (pos : Position) :
    (b.insert_newline pos).lines.length = max b.lines.length (pos.row + 1) + 1 := by
  unfold Buffer.insert_newline
  by_cases hr : b.lines.length ≤ pos.row
  · simp only [hr, if_true]
    rw [List.length_insertIdx _ _
      (by simp only [List.length_set, List.length_append, List.length_replicate]; omega)]
    simp only [List.length_set, List.length_append, List.length_replicate]
    omega
  · simp only [hr, if_false]
    rw [List.length_insertIdx _ _ (by simp only [List.length_set]; omega)]
    simp only [List.length_set]
    omega

lemma delete_line_length_pos (b : Buffer) (row : Nat) (h : 0 < b.lines.length) :
    0 < (b.delete_line row).lines.length := by
  unfold Buffer.delete_line
  by_cases hr : row < b.lines.length
  · by_cases h1 : 1 < b.lines.length
    · simp only [hr, if_true, h1]
      have h2 := List.length_eraseIdx_add_one hr
      omega
    · simp only [hr, if_true, h1, if_false, List.length_set]
      exact h
  · simp only [hr, if_false]
    exact h

/-! Core lemmas about a single command: under `Command.fits`, executing a
command sets the modified flag, undoing it restores the buffer exactly
(apart from the flag, which stays set), and re-executing the captured
command object reproduces the captured object and the resulting buffer. -/

lemma execute_modified (c : Command) (b : Buffer) (h : c.fits b) :
    ((c.execute b).2).modified = true := by
  cases c with
  | insert pos text =>
      simp [Command.execute, Buffer.insert_text]
  | delete pos length d =>
      obtain ⟨h1, _⟩ := h
      simp [Command.execute, Buffer.delete_text, Nat.not_le_of_lt h1]

lemma execute_cursor (c : Command) (b : Buffer) :
    ((c.execute b).2).cursor = b.cursor := by
  cases c with
  | insert pos text =>
      simp [Command.execute, Buffer.insert_text]
  | delete pos length d =>
      simp only [Command.execute, Buffer.delete_text]
      split <;> simp

lemma undo_execute (c : Command) (b : Buffer) (h : c.fits b) :
    ((c.execute b).1).undo ((c.execute b).2) = { b with modified := true } := by
  cases c with
  | insert pos text =>
      obtain ⟨h1, h2⟩ := h
      set L := b.lines.getD pos.row [] with hL
      have hlen : pos.row < b.lines.length := h1
      have hwr : ¬ b.lines.length ≤ pos.row := Nat.not_le_of_lt h1
      simp only [Command.execute, Command.undo, Buffer.insert_text, hwr, if_false]
      have hset : ((b.lines.set pos.row (L.take pos.col ++ text ++ L.drop pos.col)).getD
          pos.row []) = L.take pos.col ++ text ++ L.drop pos.col :=
        getD_set_self _ _ _ _ (by simpa using h1)
      simp only [Buffer.delete_text, List.length_set, hwr, if_false, hset]
      have htklen : (L.take pos.col).length = pos.col := by
        simp [List.length_take, Nat.min_eq_left h2]
      have hlinelen : (L.take pos.col ++ text ++ L.drop pos.col).length
          = L.length + text.length := by
        simp [htklen]
        omega
      have hfit : pos.col + text.length ≤ (L.take pos.col ++ text ++ L.drop pos.col).length := by
        omega
      simp only [hfit, if_true]
      have htk : (L.take pos.col ++ text ++ L.drop pos.col).take pos.col = L.take pos.col := by
        rw [List.append_assoc]
        exact List.take_left' htklen
      have hdr : (L.take pos.col ++ text ++ L.drop pos.col).drop (pos.col + text.length)
          = L.drop pos.col := by
        rw [List.append_assoc, ← List.drop_drop, List.drop_left' htklen,
          List.drop_left' rfl]
      rw [htk, hdr, List.take_append_drop, List.set_set, hL, set_getD_self]
  | delete pos length d =>
      obtain ⟨h1, h2⟩ := h
      set L := b.lines.getD pos.row [] with hL
      have hwr : ¬ b.lines.length ≤ pos.row := Nat.not_le_of_lt h1
      have hcol : pos.col ≤ L.length := le_trans (Nat.le_add_right _ _) h2
      simp only [Command.execute, Command.undo, Buffer.get_text, Buffer.delete_text,
        hwr, if_false, h2, if_true, Buffer.insert_text, List.length_set]
      have hset : ((b.lines.set pos.row (L.take pos.col ++ L.drop (pos.col + length))).getD
          pos.row []) = L.take pos.col ++ L.drop (pos.col + length) :=
        getD_set_self _ _ _ _ (by simpa using h1)
      simp only [hset]
      have htklen : (L.take pos.col).length = pos.col := by
        simp [List.length_take, Nat.min_eq_left hcol]
      have htk : (L.take pos.col ++ L.drop (pos.col + length)).take pos.col = L.take pos.col :=
        List.take_left' htklen
      have hdr : (L.take pos.col ++ L.drop (pos.col + length)).drop pos.col
          = L.drop (pos.col + length) := List.drop_left' htklen
      have hdd : L.drop (pos.col + length) = (L.drop pos.col).drop length := by
        rw [List.drop_drop, Nat.add_comm]
      rw [htk, hdr, hdd, List.append_assoc, List.take_append_drop, List.take_append_drop,
        List.set_set, hL, set_getD_self]

lemma execute_captured (c : Command) (b : Buffer) (m : Bool) (h : c.fits b) :
    ((c.execute b).1).execute { b with modified := m } = c.execute b := by
  cases c with
  | insert pos text =>
      simp [Command.execute, Buffer.insert_text]
  | delete pos length d =>
      obtain ⟨h1, _⟩ := h
      have hwr : ¬ b.lines.length ≤ pos.row := Nat.not_le_of_lt h1
      simp [Command.execute, Buffer.get_text, Buffer.delete_text, hwr]

/-- After `Editor._execute_command`, the undo index points at the last
history entry, so a `redo` is a no-op. -/
lemma redo_after_exec (e : Editor) (c : Command) :
    (e._execute_command c).redo = e._execute_command c := by
  simp [Editor.redo, Editor._execute_command]

/-- C10: `Buffer.insert_text` is total: the modified flag is set, the
addressed row exists afterwards (blank lines are added when it was past the
end), and a column beyond the line length appends the text at the end of
the line. -/
theorem C10_insert_text_total (b : Buffer) (pos : Position) (text : Line) :
    (b.insert_text pos text).modified = true
  ∧ pos.row < (b.insert_text pos text).lines.length
  ∧ ((b.get_line pos.row).length ≤ pos.col →
      (b.insert_text pos text).get_line pos.row = b.get_line pos.row ++ text) := by
  refine ⟨insert_text_modified b pos text, ?_, ?_⟩
  · rw [insert_text_length]
    omega
  · intro hc
    unfold Buffer.insert_text Buffer.get_line
    unfold Buffer.get_line at hc
    by_cases hr : b.lines.length ≤ pos.row
    · have hrep : (b.lines ++ List.replicate (pos.row - b.lines.length + 1) []).getD
          pos.row ([] : Line) = [] := by
        rw [getD_append_right _ _ _ _ hr]
        exact getD_replicate _ _ _ _ (Nat.lt_succ_self _)
      have hlen : (b.lines ++ List.replicate (pos.row - b.lines.length + 1) []).length
          = pos.row + 1 := by
        simp only [List.length_append, List.length_replicate]
        omega
      have hout : b.lines.getD pos.row ([] : Line) = [] := getD_length_lt _ _ _ hr
      simp only [hr, if_true, hrep, hout]
      rw [getD_set_self _ _ _ _ (by omega)]
      simp
    · simp only [hr, if_false]
      rw [getD_set_self _ _ _ _ (by omega)]
      rw [List.take_of_length_le hc, List.drop_of_length_le hc]
      simp

/-- Witness for C10 at a concrete buffer, position past the end of both the
line list and the line. -/
theorem C10_insert_text_total_witness :
    buffer_ab.get_line 2 = [] ∧
    ((buffer_ab.insert_text ⟨2, 7⟩ ['z']).modified = true
      ∧ 2 < (buffer_ab.insert_text ⟨2, 7⟩ ['z']).lines.length
      ∧ ((buffer_ab.get_line 2).length ≤ 7 →
          (buffer_ab.insert_text ⟨2, 7⟩ ['z']).get_line 2 = buffer_ab.get_line 2 ++ ['z'])) :=
  ⟨by decide, C10_insert_text_total buffer_ab ⟨2, 7⟩ ['z']⟩

/-- C7 counterexample: when the addressed row does not exist, `delete_text`
returns before the assignment to the modified flag, so the flag is not set,
contradicting the claim that it is set in every case. -/
theorem C7_counterexample :
    ¬ ((Buffer.init.delete_text ⟨1, 0⟩ 1).modified = true) := by
  decide

/-- C7 amended: when the row exists, `delete_text` removes exactly `length`
characters at `pos.col` if the range fits and leaves the line unchanged if
it does not, setting the modified flag either way; when the row does not
exist it is a complete no-op and the flag keeps its previous value. -/
theorem C7_delete_text_spec (b : Buffer) (pos : Position) (length : Nat) :
    (pos.row < b.lines.length →
        (pos.col + length ≤ (b.get_line pos.row).length →
            (b.delete_text pos length).lines
              = b.lines.set pos.row ((b.get_line pos.row).take pos.col
                  ++ (b.get_line pos.row).drop (pos.col + length))
              ∧ ((b.delete_text pos length).get_line pos.row).length + length
                  = (b.get_line pos.row).length)
          ∧ (¬ pos.col + length ≤ (b.get_line pos.row).length →
              (b.delete_text pos length).lines = b.lines)
          ∧ (b.delete_text pos length).modified = true)
  ∧ (b.lines.length ≤ pos.row → b.delete_text pos length = b) := by
  unfold Buffer.delete_text Buffer.get_line
  constructor
  · intro hr
    have hwr : ¬ b.lines.length ≤ pos.row := Nat.not_le_of_lt hr
    simp only [hwr, if_false]
    refine ⟨?_, ?_, by trivial⟩
    · intro hfit
      simp only [hfit, if_true]
      refine ⟨by trivial, ?_⟩
      rw [getD_set_self _ _ _ _ (by omega)]
      have hcol : pos.col ≤ (b.lines.getD pos.row []).length :=
        le_trans (Nat.le_add_right _ _) hfit
      rw [List.length_append, List.length_take, List.length_drop,
        Nat.min_eq_left hcol]
      omega
    · intro hfit
      simp only [hfit, if_false]
  · intro hr
    simp only [hr, if_true]

/-- Witness for C7 at a concrete buffer: a fitting delete on the line "ab"
and the no-op branch at a row past the end. -/
theorem C7_delete_text_spec_witness :
    ((0 < buffer_ab.lines.length →
        (0 + 1 ≤ (buffer_ab.get_line 0).length →
            (buffer_ab.delete_text ⟨0, 0⟩ 1).lines
              = buffer_ab.lines.set 0 ((buffer_ab.get_line 0).take 0
                  ++ (buffer_ab.get_line 0).drop (0 + 1))
              ∧ ((buffer_ab.delete_text ⟨0, 0⟩ 1).get_line 0).length + 1
                  = (buffer_ab.get_line 0).length)
          ∧ (¬ 0 + 1 ≤ (buffer_ab.get_line 0).length →
              (buffer_ab.delete_text ⟨0, 0⟩ 1).lines = buffer_ab.lines)
          ∧ (buffer_ab.delete_text ⟨0, 0⟩ 1).modified = true)
      ∧ (buffer_ab.lines.length ≤ 0 → buffer_ab.delete_text ⟨0, 0⟩ 1 = buffer_ab)) :=
  C7_delete_text_spec buffer_ab ⟨0, 0⟩ 1

/-- C5: `move_cursor` keeps the cursor row strictly below the line count
and the cursor column at most the length of the line at the destination
row, for arbitrary integer deltas, on any buffer with at least one line. -/
theorem C5_move_cursor_bounds (e : Editor) (dx dy : Int)
    (h : 0 < e.buffer.get_line_count) :
    (e.move_cursor dx dy).buffer.cursor.row < e.buffer.get_line_count
  ∧ (e.move_cursor dx dy).buffer.cursor.col
      ≤ (e.buffer.get_line (e.move_cursor dx dy).buffer.cursor.row).length := by
  unfold Buffer.get_line_count at h ⊢
  simp only [Editor.move_cursor, Buffer.get_line_count]
  constructor
  · omega
  · omega

/-- Witness for C5 at a concrete editor with large overshooting deltas. -/
theorem C5_move_cursor_bounds_witness :
    0 < editor_ab.buffer.get_line_count
  ∧ ((editor_ab.move_cursor 1000 (-1000)).buffer.cursor.row
        < editor_ab.buffer.get_line_count
      ∧ (editor_ab.move_cursor 1000 (-1000)).buffer.cursor.col
        ≤ (editor_ab.buffer.get_line
            (editor_ab.move_cursor 1000 (-1000)).buffer.cursor.row).length) :=
  ⟨by decide, C5_move_cursor_bounds editor_ab 1000 (-1000) (by decide)⟩

/-- C2 counterexample: a delete whose range does not fit the line "ab"
captures the clamped substring "b", deletes nothing, and its undo then
inserts the capture, so the line content after execute-undo is "abb", not
the pre-execute content. -/
theorem C2_counterexample :
    ((overlong_delete.execute buffer_ab).1.undo
        (overlong_delete.execute buffer_ab).2).lines ≠ buffer_ab.lines := by
  decide

/-- C2 amended: when the deletion range fits within the addressed line
(the row exists and `pos.col + length` is at most the line length), undo
after execute restores the buffer exactly, except that the modified flag
stays set. -/
theorem C2_delete_undo_restores (pos : Position) (length : Nat) (d : Line) (b : Buffer)
    (h1 : pos.row < b.lines.length)
    (h2 : pos.col + length ≤ (b.lines.getD pos.row []).length) :
    ((Command.delete pos length d).execute b).1.undo
        ((Command.delete pos length d).execute b).2 = { b with modified := true } :=
  undo_execute (.delete pos length d) b ⟨h1, h2⟩

/-- Witness for C2 at a fitting delete on the line "ab". -/
theorem C2_delete_undo_restores_witness :
    (0 < buffer_ab.lines.length ∧ 1 + 1 ≤ (buffer_ab.lines.getD 0 []).length)
  ∧ ((Command.delete ⟨0, 1⟩ 1 []).execute buffer_ab).1.undo
      ((Command.delete ⟨0, 1⟩ 1 []).execute buffer_ab).2
      = { buffer_ab with modified := true } :=
  ⟨⟨by decide, by decide⟩,
    C2_delete_undo_restores ⟨0, 1⟩ 1 [] buffer_ab (by decide) (by decide)⟩

/-- C6 counterexample: `delete_line` does not preserve cursor validity:
deleting the first of two lines while the cursor is on the second leaves
`cursor.row` equal to the new line count. -/
theorem C6_counterexample :
    buffer_two_lines.cursor.row < buffer_two_lines.lines.length
  ∧ ¬ ((buffer_two_lines.delete_line 0).cursor.row
        < (buffer_two_lines.delete_line 0).lines.length) := by
  decide

/-- C6 amended: every buffer operation keeps the line list nonempty
(`delete_line` on the last remaining line clears it instead of removing
it), and `insert_text`, `delete_text` and `insert_newline` also preserve
the validity of `cursor.row`; `delete_line` may invalidate it when a line
is removed. -/
theorem C6_buffer_invariants (b : Buffer) (pos : Position) (text : Line)
    (length row : Nat) (h : 0 < b.lines.length) :
    (0 < (b.insert_text pos text).lines.length
      ∧ 0 < (b.delete_text pos length).lines.length
      ∧ 0 < (b.insert_newline pos).lines.length
      ∧ 0 < (b.delete_line row).lines.length)
  ∧ (b.cursor.row < b.lines.length →
      (b.insert_text pos text).cursor.row < (b.insert_text pos text).lines.length
      ∧ (b.delete_text pos length).cursor.row < (b.delete_text pos length).lines.length
      ∧ (b.insert_newline pos).cursor.row < (b.insert_newline pos).lines.length) := by
  have hins := insert_text_length b pos text
  have hinsc := insert_text_cursor b pos text
  have hdel := delete_text_length b pos length
  have hdelc := delete_text_cursor b pos length
  have hnl := insert_newline_length b pos
  have hnlc := insert_newline_cursor b pos
  have hdl := delete_line_length_pos b row h
  refine ⟨⟨by omega, by omega, by omega, hdl⟩, ?_⟩
  intro hc
  refine ⟨?_, ?_, ?_⟩
  · rw [hins, hinsc]; omega
  · rw [hdel, hdelc]; omega
  · rw [hnl, hnlc]; omega

/-- Witness for C6 at a concrete two-line buffer. -/
theorem C6_buffer_invariants_witness :
    0 < buffer_two_lines.lines.length
  ∧ ((0 < (buffer_two_lines.insert_text ⟨0, 0⟩ ['z']).lines.length
      ∧ 0 < (buffer_two_lines.delete_text ⟨0, 0⟩ 1).lines.length
      ∧ 0 < (buffer_two_lines.insert_newline ⟨0, 0⟩).lines.length
      ∧ 0 < (buffer_two_lines.delete_line 1).lines.length)
    ∧ (buffer_two_lines.cursor.row < buffer_two_lines.lines.length →
        (buffer_two_lines.insert_text ⟨0, 0⟩ ['z']).cursor.row
            < (buffer_two_lines.insert_text ⟨0, 0⟩ ['z']).lines.length
        ∧ (buffer_two_lines.delete_text ⟨0, 0⟩ 1).cursor.row
            < (buffer_two_lines.delete_text ⟨0, 0⟩ 1).lines.length
        ∧ (buffer_two_lines.insert_newline ⟨0, 0⟩).cursor.row
            < (buffer_two_lines.insert_newline ⟨0, 0⟩).lines.length)) :=
  ⟨by decide, C6_buffer_invariants buffer_two_lines ⟨0, 0⟩ ['z'] 1 1 (by decide)⟩

/-- C9 counterexample: with the anchor at column 1 and the live cursor at
column 3 of "hello", delete-selection does not leave "ho": the code deletes
`max - min = 2` characters, the half-open range. -/
theorem C9_counterexample :
    (editor_hello.delete_selection).buffer.lines ≠ [['h', 'o']] := by
  decide

/-- C9 amended: the selection columns are normalized with min/max and the
half-open range [min, max) is deleted — the character at the selection's
end column survives — leaving "hlo" for either ordering of anchor and live
cursor; the mode reverts to Normal and the cursor moves to the range
start. -/
theorem C9_delete_selection_halfopen :
    (editor_hello.delete_selection).buffer.lines = [['h', 'l', 'o']]
  ∧ (editor_hello.delete_selection).mode = .NORMAL
  ∧ (editor_hello.delete_selection).buffer.cursor = ⟨0, 1⟩
  ∧ (editor_hello_swapped.delete_selection).buffer.lines = [['h', 'l', 'o']]
  ∧ (editor_hello_swapped.delete_selection).mode = .NORMAL := by
  decide

/-- C4: the enter-visual branch of the Normal-mode handler raises for every
editor state: it evaluates the attribute access `self.editor.cursor`, and
the `Editor` class never defines a `cursor` attribute (the cursor lives at
`editor.buffer.cursor`), so the dispatch does not complete and the
`AttributeError` propagates out of the key loop. -/
theorem C4_enter_visual_raises (e : Editor) :
    KeyHandler.handle_normal_mode e 118 = none :=
  rfl

/-- C8: the §8 newline scenario diverges from the specified result: after
inserting "ab" at (0,0), moving the cursor to (0,2) and inserting a
newline, the code leaves three lines, because `Editor.insert_newline` first
executes an insert command for the tail at the start of the next row, which
extends the buffer with a fresh line, and then splits the line again with
`Buffer.insert_newline`; two undos then leave three empty lines rather than
the original single empty line. -/
theorem C8_newline_scenario_diverges :
    scenario_step3.buffer.lines = [['a', 'b'], [], []]
  ∧ scenario_step3.buffer.lines ≠ [['a', 'b'], []]
  ∧ (scenario_step3.undo.undo).buffer.lines = [[], [], []]
  ∧ (scenario_step3.undo.undo).buffer.lines ≠ [[]] := by
  decide

/-- C3: executing a new command while the undo index is not at the last
entry truncates the history to the entries up to the index, appends the
newly captured command, and points the index at the new last entry; and
after an undo followed by an execute, a redo is a no-op. -/
theorem C3_truncation (e : Editor) (c : Command)
    (h1 : -1 ≤ e.undo_index)
    (h2 : e.undo_index < (e.command_history.length : Int) - 1) :
    (e._execute_command c).command_history
        = e.command_history.take (e.undo_index + 1).toNat ++ [(c.execute e.buffer).1]
  ∧ (e._execute_command c).undo_index
        = ((e._execute_command c).command_history.length : Int) - 1
  ∧ (e.undo._execute_command c).redo = e.undo._execute_command c := by
  refine ⟨?_, ?_, redo_after_exec _ _⟩
  · simp [Editor._execute_command, h2]
  · simp [Editor._execute_command]

/-- Witness for C3 at an editor whose history has two entries with the
undo index on the first. -/
theorem C3_truncation_witness :
    (-1 ≤ editor_mid_history.undo_index
      ∧ editor_mid_history.undo_index
          < (editor_mid_history.command_history.length : Int) - 1)
  ∧ ((editor_mid_history._execute_command (.insert ⟨0, 2⟩ ['c'])).command_history
        = editor_mid_history.command_history.take
            (editor_mid_history.undo_index + 1).toNat
          ++ [((Command.insert ⟨0, 2⟩ ['c']).execute editor_mid_history.buffer).1]
      ∧ (editor_mid_history._execute_command (.insert ⟨0, 2⟩ ['c'])).undo_index
        = (((editor_mid_history._execute_command
              (.insert ⟨0, 2⟩ ['c'])).command_history.length : Int)) - 1
      ∧ (editor_mid_history.undo._execute_command (.insert ⟨0, 2⟩ ['c'])).redo
        = editor_mid_history.undo._execute_command (.insert ⟨0, 2⟩ ['c'])) :=
  ⟨⟨by decide, by decide⟩,
    C3_truncation editor_mid_history (.insert ⟨0, 2⟩ ['c']) (by decide) (by decide)⟩

/-! Machinery for the undo/redo round-trip: how a run of commands unfolds
through `run_commands` and `captured`, and how fitting commands behave at
every intermediate stage. -/

lemma captured_length : ∀ (cs : List Command) (b : Buffer),
    (captured b cs).length = cs.length
  | [], _ => rfl
  | c :: cs, b => by
      simpa [captured] using captured_length cs (c.execute b).2

lemma run_take_succ : ∀ (cs : List Command) (b : Buffer) (j : Nat) (d : Command),
    j < cs.length →
    run_commands b (cs.take (j + 1)) = ((cs.getD j d).execute (run_commands b (cs.take j))).2
  | c :: _, b, 0, d, _ => rfl
  | c :: cs, b, j + 1, d, h => by
      simpa [run_commands] using
        run_take_succ cs (c.execute b).2 j d (Nat.lt_of_succ_lt_succ h)

lemma captured_getD : ∀ (cs : List Command) (b : Buffer) (j : Nat) (d d' : Command),
    j < cs.length →
    (captured b cs).getD j d = ((cs.getD j d').execute (run_commands b (cs.take j))).1
  | c :: _, b, 0, _, _, _ => rfl
  | c :: cs, b, j + 1, d, d', h => by
      simpa [captured] using
        captured_getD cs (c.execute b).2 j d d' (Nat.lt_of_succ_lt_succ h)

lemma fits_getD : ∀ (cs : List Command) (b : Buffer) (j : Nat) (d : Command),
    CommandsFit b cs → j < cs.length →
    (cs.getD j d).fits (run_commands b (cs.take j))
  | c :: _, b, 0, _, hf, _ => hf.1
  | c :: cs, b, j + 1, d, hf, h => by
      simpa [run_commands] using
        fits_getD cs (c.execute b).2 j d hf.2 (Nat.lt_of_succ_lt_succ h)

lemma run_modified : ∀ (cs : List Command) (b : Buffer),
    CommandsFit b cs → cs ≠ [] → (run_commands b cs).modified = true
  | [c], b, hf, _ => execute_modified c b hf.1
  | c :: c' :: cs, b, hf, _ =>
      run_modified (c' :: cs) (c.execute b).2 hf.2 (by simp)

lemma set_modified_self (b : Buffer) (h : b.modified = true) :
    { b with modified := true } = b := by
  cases b
  simp_all

lemma undo_n_succ : ∀ (e : Editor) (k : Nat), e.undo_n (k + 1) = (e.undo_n k).undo
  | _, 0 => rfl
  | e, k + 1 => undo_n_succ e.undo k

lemma undo_stage (e : Editor) (P : List Command) (b : Buffer) (cs : List Command) (k : Nat)
    (hf : CommandsFit b cs) (hk : k < cs.length) :
    (stage e P b cs k).undo = stage e P b cs (k + 1) := by
  have hjn : cs.length - 1 - k < cs.length := by omega
  have hfit := fits_getD cs b (cs.length - 1 - k) (.insert ⟨0, 0⟩ []) hf hjn
  have hbuf : ({ run_commands b (cs.take (cs.length - k)) with modified := true } : Buffer)
      = ((cs.getD (cs.length - 1 - k) (.insert ⟨0, 0⟩ [])).execute
          (run_commands b (cs.take (cs.length - 1 - k)))).2 := by
    have h1 : cs.length - k = (cs.length - 1 - k) + 1 := by omega
    rw [h1, run_take_succ cs b _ _ hjn]
    exact set_modified_self _ (execute_modified _ _ hfit)
  have hge : (0 : Int) ≤ (P.length : Int) + cs.length - 1 - k := by omega
  have hidx : ((P.length : Int) + cs.length - 1 - k).toNat
      = P.length + (cs.length - 1 - k) := by omega
  have hentry : (P ++ captured b cs).getD (P.length + (cs.length - 1 - k))
        (.insert ⟨0, 0⟩ [])
      = ((cs.getD (cs.length - 1 - k) (.insert ⟨0, 0⟩ [])).execute
          (run_commands b (cs.take (cs.length - 1 - k)))).1 := by
    rw [getD_append_right _ _ _ _ (Nat.le_add_right _ _), Nat.add_sub_cancel_left]
    exact captured_getD cs b _ _ _ hjn
  have htail : cs.length - (k + 1) = cs.length - 1 - k := by omega
  obtain ⟨m, bb, vs, cb, sb, ch, ui⟩ := e
  simp only [stage, Editor.undo]
  split
  · rw [hidx, hentry, hbuf, undo_execute _ _ hfit, htail]
    simp only [Editor.mk.injEq, true_and, and_true]
    omega
  · omega

lemma redo_stage (e : Editor) (P : List Command) (b : Buffer) (cs : List Command) (k : Nat)
    (hf : CommandsFit b cs) (hk : k < cs.length) :
    (stage e P b cs (k + 1)).redo = stage e P b cs k := by
  have hjn : cs.length - 1 - k < cs.length := by omega
  have hfit := fits_getD cs b (cs.length - 1 - k) (.insert ⟨0, 0⟩ []) hf hjn
  have hbuf : ({ run_commands b (cs.take (cs.length - k)) with modified := true } : Buffer)
      = ((cs.getD (cs.length - 1 - k) (.insert ⟨0, 0⟩ [])).execute
          (run_commands b (cs.take (cs.length - 1 - k)))).2 := by
    have h1 : cs.length - k = (cs.length - 1 - k) + 1 := by omega
    rw [h1, run_take_succ cs b _ _ hjn]
    exact set_modified_self _ (execute_modified _ _ hfit)
  have hlen : (P ++ captured b cs).length = P.length + cs.length := by
    rw [List.length_append, captured_length]
  have hidx : ((P.length : Int) + cs.length - 1 - ((k + 1 : Nat) : Int) + 1).toNat
      = P.length + (cs.length - 1 - k) := by omega
  have hentry : (P ++ captured b cs).getD (P.length + (cs.length - 1 - k))
        (.insert ⟨0, 0⟩ [])
      = ((cs.getD (cs.length - 1 - k) (.insert ⟨0, 0⟩ [])).execute
          (run_commands b (cs.take (cs.length - 1 - k)))).1 := by
    rw [getD_append_right _ _ _ _ (Nat.le_add_right _ _), Nat.add_sub_cancel_left]
    exact captured_getD cs b _ _ _ hjn
  have htail : cs.length - (k + 1) = cs.length - 1 - k := by omega
  have hexec : ((cs.getD (cs.length - 1 - k) (.insert ⟨0, 0⟩ [])).execute
        (run_commands b (cs.take (cs.length - 1 - k)))).1.execute
        ({ run_commands b (cs.take (cs.length - 1 - k)) with modified := true })
      = (cs.getD (cs.length - 1 - k) (.insert ⟨0, 0⟩ [])).execute
        (run_commands b (cs.take (cs.length - 1 - k))) :=
    execute_captured _ _ true hfit
  obtain ⟨m, bb, vs, cb, sb, ch, ui⟩ := e
  simp only [stage, Editor.redo]
  split
  · rw [hidx, hentry, htail, hexec]
    simp only [Editor.mk.injEq, true_and, and_true]
    refine ⟨hbuf.symm, ?_, by omega⟩
    rw [← hentry, set_getD_self]
  · rename_i hcond
    rw [hlen] at hcond
    omega

lemma undo_n_stage (e : Editor) (P : List Command) (b : Buffer) (cs : List Command)
    (hf : CommandsFit b cs) :
    ∀ (k : Nat), k ≤ cs.length → (stage e P b cs 0).undo_n k = stage e P b cs k
  | 0, _ => rfl
  | k + 1, h => by
      rw [undo_n_succ, undo_n_stage e P b cs hf k (by omega),
        undo_stage e P b cs k hf (by omega)]

lemma redo_n_stage (e : Editor) (P : List Command) (b : Buffer) (cs : List Command)
    (hf : CommandsFit b cs) :
    ∀ (k : Nat), k ≤ cs.length → (stage e P b cs k).redo_n k = stage e P b cs 0
  | 0, _ => rfl
  | k + 1, h => by
      have h1 : (stage e P b cs (k + 1)).redo = stage e P b cs k :=
        redo_stage e P b cs k hf (by omega)
      show ((stage e P b cs (k + 1)).redo).redo_n k = stage e P b cs 0
      rw [h1, redo_n_stage e P b cs hf k (by omega)]

lemma exec_cmd_eq (e : Editor) (c : Command)
    (h1 : -1 ≤ e.undo_index) (h2 : e.undo_index < (e.command_history.length : Int)) :
    e._execute_command c = { e with
      buffer := (c.execute e.buffer).2
      command_history := e.live ++ [(c.execute e.buffer).1]
      undo_index := (e.live.length : Int) } := by
  unfold Editor._execute_command Editor.live
  by_cases hc : e.undo_index < (e.command_history.length : Int) - 1
  · simp only [hc, if_true, Editor.mk.injEq, true_and, and_true]
    rw [List.length_append, List.length_take]
    simp only [List.length_singleton]
    push_cast
    omega
  · have htn : (e.undo_index + 1).toNat = e.command_history.length := by omega
    simp only [hc, if_false, htn, List.take_length, Editor.mk.injEq, true_and, and_true]
    rw [List.length_append]
    simp only [List.length_singleton]
    push_cast
    omega

lemma exec_list_eq : ∀ (cs : List Command) (e : Editor) (c : Command),
    -1 ≤ e.undo_index → e.undo_index < (e.command_history.length : Int) →
    e.exec_list (c :: cs) = { e with
      buffer := run_commands e.buffer (c :: cs)
      command_history := e.live ++ captured e.buffer (c :: cs)
      undo_index := (e.live.length : Int) + (c :: cs).length - 1 }
  | [], e, c, h1, h2 => by
      have hstep : e.exec_list [c] = e._execute_command c := rfl
      rw [hstep, exec_cmd_eq e c h1 h2]
      simp only [captured, run_commands, Editor.mk.injEq, true_and, and_true,
        List.length_cons, List.length_nil]
      push_cast
      omega
  | c' :: cs, e, c, h1, h2 => by
      have hstep : e.exec_list (c :: c' :: cs) = (e._execute_command c).exec_list (c' :: cs) :=
        rfl
      rw [hstep, exec_cmd_eq e c h1 h2]
      set e1 : Editor := { e with
          buffer := (c.execute e.buffer).2
          command_history := e.live ++ [(c.execute e.buffer).1]
          undo_index := (e.live.length : Int) } with he1
      have h1' : (-1 : Int) ≤ e1.undo_index := by
        show (-1 : Int) ≤ (e.live.length : Int)
        omega
      have h2' : e1.undo_index < (e1.command_history.length : Int) := by
        show (e.live.length : Int) < ((e.live ++ [(c.execute e.buffer).1]).length : Int)
        rw [List.length_append]
        simp only [List.length_singleton]
        push_cast
        omega
      have hlive : e1.live = e.live ++ [(c.execute e.buffer).1] := by
        show (e.live ++ [(c.execute e.buffer).1]).take
            (((e.live.length : Int) + 1).toNat) = e.live ++ [(c.execute e.buffer).1]
        have htn : ((e.live.length : Int) + 1).toNat = e.live.length + 1 := by omega
        rw [htn]
        exact List.take_of_length_le (by simp)
      rw [exec_list_eq cs e1 c' h1' h2', hlive, he1]
      simp only [Editor.mk.injEq, true_and, and_true, run_commands, captured,
        List.append_assoc, List.singleton_append, List.length_append,
        List.length_cons, List.length_nil, List.length_singleton]
      push_cast
      omega

/-- After running at least one fitting command list, the editor is exactly
the stage-0 ghost state over its previous live history. -/
lemma exec_list_stage (e : Editor) (c : Command) (cs : List Command)
    (h1 : -1 ≤ e.undo_index) (h2 : e.undo_index < (e.command_history.length : Int))
    (hf : CommandsFit e.buffer (c :: cs)) :
    e.exec_list (c :: cs) = stage e e.live e.buffer (c :: cs) 0 := by
  rw [exec_list_eq cs e c h1 h2]
  unfold stage
  simp only [Nat.sub_zero, List.take_length, Editor.mk.injEq, true_and, and_true]
  refine ⟨?_, by push_cast; omega⟩
  exact (set_modified_self _ (run_modified (c :: cs) e.buffer hf (by simp))).symm

/-- C1 counterexample: the round-trip guarantee fails for a delete command
whose range does not fit its line.  On the buffer "ab", executing
Delete((0,1), 5) captures "b" and deletes nothing; one undo inserts the
capture producing "abb"; one redo re-captures "bb" and again deletes
nothing, so the final line content "abb" differs from the content "ab"
immediately after the execute. -/
theorem C1_counterexample :
    (((editor_ab.exec_list [overlong_delete]).undo_n 1).redo_n 1).buffer.lines
      ≠ (editor_ab.exec_list [overlong_delete]).buffer.lines := by
  decide

/-- C1 amended: for every command sequence in which each command's range
fits the line it addresses on the buffer it executes against, N executes
followed by N undos followed by N redos return the editor — buffer line
content and modified flag included — to exactly its state after the N
executes. -/
theorem C1_roundtrip (e : Editor) (cs : List Command)
    (h1 : -1 ≤ e.undo_index) (h2 : e.undo_index < (e.command_history.length : Int))
    (hf : CommandsFit e.buffer cs) :
    ((e.exec_list cs).undo_n cs.length).redo_n cs.length = e.exec_list cs := by
  cases cs with
  | nil => rfl
  | cons c cs' =>
      rw [exec_list_stage e c cs' h1 h2 hf,
        undo_n_stage e e.live e.buffer (c :: cs') hf (c :: cs').length le_rfl]
      exact redo_n_stage e e.live e.buffer (c :: cs') hf (c :: cs').length le_rfl

/-- Witness for C1 on a fresh editor over the line "ab" with a fitting
insert followed by a fitting delete. -/
theorem C1_roundtrip_witness :
    (-1 ≤ editor_ab.undo_index
      ∧ editor_ab.undo_index < (editor_ab.command_history.length : Int)
      ∧ CommandsFit editor_ab.buffer [.insert ⟨0, 2⟩ ['c'], .delete ⟨0, 0⟩ 2 []])
  ∧ ((editor_ab.exec_list [.insert ⟨0, 2⟩ ['c'], .delete ⟨0, 0⟩ 2 []]).undo_n 2).redo_n 2
      = editor_ab.exec_list [.insert ⟨0, 2⟩ ['c'], .delete ⟨0, 0⟩ 2 []] :=
  ⟨⟨by decide, by decide, by decide⟩,
    C1_roundtrip editor_ab [.insert ⟨0, 2⟩ ['c'], .delete ⟨0, 0⟩ 2 []]
      (by decide) (by decide) (by decide)⟩

end PyEdit
